import Mathlib

/-
Verification of the go-imagefy candidate validation pipeline.

This file gives a shallow embedding, in Lean 4, of the license resolver
(assessment.go), the classification response parsers (classify.go), the
perceptual duplicate filter (dedup.go), the candidate filter
(cclicense.go, filterCandidates) and the candidate validation
orchestrator (validateCandidates / validateOne), together with theorems
about them.

Modelling conventions:
- Go strings are Lean String values; byte-level operations are modelled
  on the character list (all string constants involved are ASCII, where
  bytes and characters coincide).
- Go float64 values reaching the parser are modelled by the GoFloat
  type: a decimal mantissa/exponent pair for finite decimal literals,
  plus NaN and signed infinity. The only float operations the parsed
  value ever meets in the source are the comparisons (value <= 0) and
  (value > 1), which GoFloat models exactly, including the IEEE rule
  that every comparison with NaN is false.
- Stateful code (the duplicate filter store, the shared validated list)
  is modelled by explicit state passing. The Go orchestrator runs
  workers concurrently, but every access to the shared list happens
  under one mutex and every append re-checks the quota, so runs are
  linearizable; the model executes the per-candidate bodies in dispatch
  order, with the outcome of each external call (HTTP probe, download,
  hashing, metadata extraction, cache, classifier) supplied by an
  environment value per candidate.
- External collaborators (net/url parsing, goimagehash, the classifier)
  are modelled by their observable behavior at the call sites, as
  documented at each definition.
-/

namespace Imagefy

/-! ## Basic string helpers (models of Go strings/strconv behavior) -/

/-- Model of the byte-wise prefix test used by strings.HasPrefix: an empty
needle is a prefix of everything. -/
def listIsPre : List Char → List Char → Bool
  | [], _ => true
  | _ :: _, [] => false
  | a :: as, b :: bs => a == b && listIsPre as bs

/-- Model of strings.Contains: does the needle occur as a contiguous
substring of the haystack (true for an empty needle)? -/
def containsSub (needle : List Char) : List Char → Bool
  | [] => listIsPre needle []
  | hay@(_ :: rest) => listIsPre needle hay || containsSub needle rest

/-- strings.Contains on whole strings. -/
def strContains (hay needle : String) : Bool :=
  containsSub needle.data hay.data

/-- Model of strings.ToLower. The Go function lowercases full Unicode;
every string it is applied to here is compared against ASCII-only
pattern lists, for which Char.toLower agrees with Go. -/
def goToLower (s : String) : String :=
  ⟨s.data.map Char.toLower⟩

/-- Model of unicode.IsSpace restricted to the Latin-1 range Go treats
as white space: space, tab, newline, vertical tab, form feed, carriage
return, NEL (U+0085) and NBSP (U+00A0). Wider Unicode space classes are
not modelled (they never occur in the claims). -/
def isGoSpace (c : Char) : Bool :=
  c == ' ' || c == '\t' || c == '\n' || c.toNat == 11 || c.toNat == 12 ||
    c == '\r' || c.toNat == 0x85 || c.toNat == 0xa0

/-- Model of strings.TrimSpace on a character list. -/
def goTrimSpaceL (cs : List Char) : List Char :=
  ((cs.dropWhile isGoSpace).reverse.dropWhile isGoSpace).reverse

/-- Model of strings.ToUpper on a character list; ASCII-only, as for
goToLower. -/
def goToUpperL (cs : List Char) : List Char :=
  cs.map Char.toUpper

/-- Accumulator pass of goFieldsL: split a character list on runs of
white space, dropping empty fields, as strings.Fields does. -/
def goFieldsAux : List Char → List Char → List (List Char)
  | [], acc => if acc.isEmpty then [] else [acc.reverse]
  | c :: cs, acc =>
    if isGoSpace c then
      if acc.isEmpty then goFieldsAux cs [] else acc.reverse :: goFieldsAux cs []
    else goFieldsAux cs (c :: acc)

/-- Model of strings.Fields on a character list. -/
def goFieldsL (cs : List Char) : List (List Char) :=
  goFieldsAux cs []

/-! ## License classification by domain (license.go) -/

/-- ImageLicense classifies an image source by copyright safety.
Constructor order mirrors the Go iota order: Safe = 0, Unknown = 1,
Blocked = 2. -/
inductive ImageLicense where
  | safe
  | unknown
  | blocked
deriving DecidableEq

/-- Numeric value of the Go enum (iota order), used where the source
compares licenses with the integer order. -/
def licenseRank : ImageLicense → Nat
  | .safe => 0
  | .unknown => 1
  | .blocked => 2

/-- The String method of ImageLicense. -/
def licenseString : ImageLicense → String
  | .safe => "safe"
  | .blocked => "blocked"
  | .unknown => "unknown"

/-- BlockedDomains from license.go. -/
def BlockedDomains : List String :=
  ["shutterstock", "gettyimages", "istockphoto", "adobestock",
   "depositphotos", "dreamstime", "123rf", "alamy", "bigstockphoto",
   "stocksy", "eyeem", "pond5", "thinkstockphotos", "canstockphoto",
   "masterfile", "superstock", "agefotostock", "colourbox", "photodune",
   "yayimages", "vectorstock", "loriimages", "fotobank", "freepik",
   "canva.", "clipartof", "featurepics", "rfclipart"]

/-- BlockedURLPatterns from license.go. -/
def BlockedURLPatterns : List String :=
  ["/stock-photo", "/stock-image", "/editorial-image", "/premium-photo"]

/-- SafeDomains from license.go. -/
def SafeDomains : List String :=
  ["unsplash", "pexels", "pixabay", "wikimedia", "commons.wikimedia",
   "flickr", "rawpixel", "stocksnap", "burst.shopify", "kaboompics",
   "picjumbo"]

/-- Host and Path of a parsed URL (the only net/url fields the license
checks read). -/
structure URLParts where
  host : String
  path : String

/-- Splits a character list at the first occurrence of a marker
substring, returning the parts before and after it, or none when the
marker does not occur. -/
def splitOnMarker (marker : List Char) : List Char → Option (List Char × List Char)
  | [] => if listIsPre marker [] then some ([], []) else none
  | l@(c :: rest) =>
    if listIsPre marker l then some ([], l.drop marker.length)
    else
      match splitOnMarker marker rest with
      | some (pre, post) => some (c :: pre, post)
      | none => none

/-- ASCII control characters (and DEL), which net/url.Parse rejects. -/
def isCtlChar (c : Char) : Bool :=
  c.toNat < 0x20 || c.toNat == 0x7f

/-- Model of net/url.Parse restricted to the two fields the license
checks use, Host and Path, for absolute (scheme://host/path),
protocol-relative (//host/path) and relative (path) URL shapes. Query
and fragment suffixes are stripped; a URL containing an ASCII control
character fails to parse, mirroring the CTL rejection of net/url.
Userinfo splitting, opaque URLs and percent-escapes are not modelled;
none of the theorems below depend on the values this function returns,
only on how its result is consumed. -/
def urlParse (raw : String) : Option URLParts :=
  if raw.data.any isCtlChar then none
  else
    let noFrag := raw.data.takeWhile (fun c => !(c == '#'))
    let afterScheme : Option (List Char) :=
      match splitOnMarker "://".data noFrag with
      | some (_, post) => some post
      | none => if listIsPre "//".data noFrag then some (noFrag.drop 2) else none
    match afterScheme with
    | some rest =>
      let host := rest.takeWhile (fun c => !(c == '/' || c == '?'))
      let path := (rest.dropWhile (fun c => !(c == '/' || c == '?'))).takeWhile
        (fun c => !(c == '?'))
      some ⟨⟨host⟩, ⟨path⟩⟩
    | none => some ⟨"", ⟨noFrag.takeWhile (fun c => !(c == '?'))⟩⟩

/-- isBlockedWith from license.go: the URL matches a blocked domain, a
blocked URL path pattern, or one of the extra blocked domains. -/
def isBlockedWith (rawURL : String) (extra : List String) : Bool :=
  if rawURL == "" then false
  else
    match urlParse rawURL with
    | none => false
    | some parts =>
      let host := goToLower parts.host
      let hostHit :=
        if host == "" then false
        else
          BlockedDomains.any (fun d => strContains host d) ||
            extra.any (fun d => strContains host d)
      let path := goToLower parts.path
      hostHit || BlockedURLPatterns.any (fun p => strContains path p)

/-- extractHost from license.go. -/
def extractHost (rawURL : String) : String :=
  match urlParse rawURL with
  | none => ""
  | some parts => goToLower parts.host

/-- isSafeWith from license.go. -/
def isSafeWith (rawURL : String) (extra : List String) : Bool :=
  let host := extractHost rawURL
  if host == "" then false
  else
    SafeDomains.any (fun d => strContains host d) ||
      extra.any (fun d => strContains host d)

/-- CheckLicenseWith from license.go: blocked wins over safe, both URLs
are consulted for both checks. -/
def CheckLicenseWith (imageURL sourceURL : String)
    (extraBlocked extraSafe : List String) : ImageLicense :=
  if [imageURL, sourceURL].any (fun u => isBlockedWith u extraBlocked) then .blocked
  else if [imageURL, sourceURL].any (fun u => isSafeWith u extraSafe) then .safe
  else .unknown

/-- CheckLicense from license.go. -/
def CheckLicense (imageURL sourceURL : String) : ImageLicense :=
  CheckLicenseWith imageURL sourceURL [] []

/-- LogoBannerPatterns from patterns.go. -/
def LogoBannerPatterns : List String :=
  ["favicon", "logo", "icon", "banner", "sprite", "badge", "button",
   "widget", "avatar"]

/-- IsLogoOrBanner from patterns.go: the (already lowercased) URL
contains a logo/banner pattern. -/
def IsLogoOrBanner (lower : String) : Bool :=
  LogoBannerPatterns.any (fun p => strContains lower p)

/-! ## Image metadata (metadata.go) -/

/-- ImageMetadata from metadata.go: the rights-related EXIF/IPTC/XMP/DC
fields used for stock and CC detection. -/
structure ImageMetadata where
  EXIFCopyright : String := ""
  EXIFArtist : String := ""
  IPTCCopyright : String := ""
  IPTCCredit : String := ""
  IPTCSource : String := ""
  IPTCByline : String := ""
  XMPLicense : String := ""
  XMPWebStatement : String := ""
  XMPUsageTerms : String := ""
  XMPMarked : Bool := false
  DCRights : String := ""
  DCCreator : String := ""
deriving DecidableEq

/-- stockMetadataKeywords from metadata.go. -/
def stockMetadataKeywords : List String :=
  ["shutterstock", "gettyimages", "getty images", "istockphoto",
   "istock", "alamy", "depositphotos", "dreamstime", "123rf",
   "adobestock", "adobe stock", "bigstockphoto", "stocksy", "pond5",
   "masterfile", "superstock", "agefotostock", "age fotostock",
   "colourbox", "yayimages", "vectorstock", "freepik", "canstockphoto"]

/-- The eight metadata fields scanned for stock-agency fingerprints, in
source order. -/
def stockScanFields (meta : ImageMetadata) : List String :=
  [meta.EXIFCopyright, meta.EXIFArtist, meta.IPTCCopyright,
   meta.IPTCCredit, meta.IPTCSource, meta.IPTCByline, meta.DCRights,
   meta.DCCreator]

/-- IsStockByMetadata from metadata.go; a nil pointer is modelled as
none. -/
def IsStockByMetadata : Option ImageMetadata → Bool
  | none => false
  | some meta =>
    (stockScanFields meta).any fun f =>
      if f == "" then false
      else stockMetadataKeywords.any fun kw => strContains (goToLower f) kw

/-- ccLicensePathSegments from cclicense.go. -/
def ccLicensePathSegments : List String :=
  ["creativecommons.org/licenses/", "creativecommons.org/publicdomain/"]

/-- IsCCLicenseURL from cclicense.go. -/
def IsCCLicenseURL (rawURL : String) : Bool :=
  if rawURL == "" then false
  else ccLicensePathSegments.any fun seg => strContains (goToLower rawURL) seg

/-- The four metadata fields scanned for CC license references, in
source order. -/
def ccScanFields (meta : ImageMetadata) : List String :=
  [meta.XMPLicense, meta.XMPWebStatement, meta.XMPUsageTerms, meta.DCRights]

/-- IsCCByMetadata from metadata.go; a nil pointer is modelled as none. -/
def IsCCByMetadata : Option ImageMetadata → Bool
  | none => false
  | some meta =>
    (ccScanFields meta).any fun f =>
      IsCCLicenseURL f ||
        ccLicensePathSegments.any fun seg => strContains (goToLower f) seg

/-- firstNonEmpty helper shared by the two detail functions of
assessment.go. -/
def firstNonEmpty : List String → String
  | [] => ""
  | f :: rest => if f == "" then firstNonEmpty rest else f

/-- metadataStockDetail from assessment.go. -/
def metadataStockDetail : Option ImageMetadata → String
  | none => ""
  | some meta => firstNonEmpty (stockScanFields meta)

/-- metadataCCDetail from assessment.go. -/
def metadataCCDetail : Option ImageMetadata → String
  | none => ""
  | some meta => firstNonEmpty (ccScanFields meta)

/-! ## License assessment (assessment.go) -/

/-- ImageCandidate from search.go. -/
structure ImageCandidate where
  ImgURL : String
  Thumbnail : String
  Source : String
  Title : String
  License : ImageLicense
deriving DecidableEq

/-- LicenseSignal from assessment.go. -/
structure LicenseSignal where
  Source : String
  Detail : String
  License : ImageLicense
deriving DecidableEq

/-- LicenseAssessment from assessment.go. In Go the Signals slice is
allocated with make and is therefore never nil; the Lean field is total,
so absence is unrepresentable in the model. -/
structure LicenseAssessment where
  License : ImageLicense
  Signals : List LicenseSignal
deriving DecidableEq

/-- Config, reduced to the fields the embedded functions read.
Classifier, Cache and OnClassification are function-typed fields in Go
tested only against nil; the model keeps one flag for each (for the
cache, presence and hit are folded into the per-call environment
below). -/
structure Config where
  ExtraBlockedDomains : List String := []
  ExtraSafeDomains : List String := []
  hasClassifier : Bool := false
  hasOnClassification : Bool := false

/-- Signal 1 of AssessLicense: the search-time domain classification. -/
def domainSignal (cand : ImageCandidate) : List LicenseSignal :=
  match cand.License with
  | .blocked =>
    [⟨"domain", "blocked by search-time domain check: " ++ cand.Source, .blocked⟩]
  | .safe =>
    [⟨"domain", "safe by search-time domain check: " ++ cand.Source, .safe⟩]
  | .unknown => []

/-- The signal emitted for the result of the extended domain check:
only when it differs from the search-time classification and is not
Unknown. -/
def extSignalOf (extLicense candLicense : ImageLicense) : List LicenseSignal :=
  if extLicense ≠ candLicense ∧ extLicense ≠ .unknown then
    [⟨"extra_domain",
      "reclassified by extended domain check: " ++ licenseString extLicense,
      extLicense⟩]
  else []

/-- Signal 2 of AssessLicense: the extended domain check, run only when
extra lists are configured. -/
def extraDomainSignal (cfg : Config) (cand : ImageCandidate) : List LicenseSignal :=
  if cfg.ExtraBlockedDomains.length > 0 || cfg.ExtraSafeDomains.length > 0 then
    extSignalOf
      (CheckLicenseWith cand.ImgURL cand.Source cfg.ExtraBlockedDomains cfg.ExtraSafeDomains)
      cand.License
  else []

/-- Signal 3 of AssessLicense: metadata stock detection. -/
def stockSignal (meta : Option ImageMetadata) : List LicenseSignal :=
  if IsStockByMetadata meta then
    [⟨"metadata_stock",
      "stock agency detected in metadata: " ++ metadataStockDetail meta,
      .blocked⟩]
  else []

/-- Signal 4 of AssessLicense: metadata CC detection. -/
def ccSignal (meta : Option ImageMetadata) : List LicenseSignal :=
  if IsCCByMetadata meta then
    [⟨"metadata_cc",
      "Creative Commons license in metadata: " ++ metadataCCDetail meta,
      .safe⟩]
  else []

/-- The signal list AssessLicense appends to, in source order (lines
22 to 69 of assessment.go, split out of the function body for the
proofs). -/
def assessSignals (cfg : Config) (cand : ImageCandidate)
    (meta : Option ImageMetadata) : List LicenseSignal :=
  domainSignal cand ++ extraDomainSignal cfg cand ++ stockSignal meta ++ ccSignal meta

/-- The resolution loop of AssessLicense (lines 72 to 81): the running
verdict starts at Unknown, a Blocked signal returns immediately, a Safe
signal updates the running verdict. -/
def resolveLoop : ImageLicense → List LicenseSignal → ImageLicense
  | finalAcc, [] => finalAcc
  | finalAcc, sig :: rest =>
    if sig.License = .blocked then .blocked
    else if sig.License = .safe then resolveLoop .safe rest
    else resolveLoop finalAcc rest

/-- AssessLicense from assessment.go: combine the four signal sources
and resolve with Blocked over Safe over Unknown. The nil metadata
pointer is modelled as none. -/
def Config.AssessLicense (cfg : Config) (cand : ImageCandidate)
    (meta : Option ImageMetadata) : LicenseAssessment :=
  ⟨resolveLoop .unknown (assessSignals cfg cand meta), assessSignals cfg cand meta⟩

/-- Modelled from the spec: the verdict resolution rule as the spec
words it, for comparison with the resolution loop of the source:
Blocked if any signal is Blocked; else Safe if any signal is Safe; else
Unknown. -/
def specFinalVerdict (signals : List LicenseSignal) : ImageLicense :=
  if signals.any (fun s => s.License == .blocked) then .blocked
  else if signals.any (fun s => s.License == .safe) then .safe
  else .unknown

/-! ## Classification response parsing (classify.go) -/

/-- Classification class constants from classify.go. -/
def ClassPhoto : String := "PHOTO"

/-- STOCK class constant. -/
def ClassStock : String := "STOCK"

/-- REJECT class constant. -/
def ClassReject : String := "REJECT"

/-- SCREENSHOT class constant. -/
def ClassScreenshot : String := "SCREENSHOT"

/-- ILLUSTRATION class constant. -/
def ClassIllustration : String := "ILLUSTRATION"

/-- MAP class constant. -/
def ClassMap : String := "MAP"

/-- classificationClasses from classify.go: valid labels ordered
longest-first to prevent prefix ambiguity. -/
def classificationClasses : List String :=
  [ClassIllustration, ClassScreenshot, ClassReject, ClassPhoto, ClassStock, ClassMap]

/-- Model of the float64 values strconv.ParseFloat can return to the
parser: a finite decimal (mantissa m and power-of-ten exponent e,
denoting m times 10 to the e), NaN, or a signed infinity. Decimal
values are kept exact instead of being rounded to binary64; the only
operations the source performs on them are the comparisons with 0 and
1 below, for which exact decimals agree with the rounded values on
every input appearing in the claims. -/
inductive GoFloat where
  | dec (m : Int) (e : Int)
  | nan
  | inf (neg : Bool)
deriving DecidableEq

/-- Powers of ten, structurally recursive so the kernel can evaluate
them. -/
def pow10 : Nat → Nat
  | 0 => 1
  | n + 1 => 10 * pow10 n

/-- The comparison (value <= 0) as Go evaluates it on a float64: false
for NaN, the sign for infinities. -/
def GoFloat.leZero : GoFloat → Bool
  | .dec m _ => decide (m ≤ 0)
  | .nan => false
  | .inf neg => neg

/-- The comparison (value > 1) as Go evaluates it on a float64: false
for NaN. For a decimal m times 10 to the e, both sides are scaled by
the positive factor 10 to the k with k = max 0 (-e), giving an integer
comparison. -/
def GoFloat.gtOne : GoFloat → Bool
  | .dec m e =>
    let k : Nat := (-e).toNat
    decide ((pow10 k : Int) < m * (pow10 (e + k).toNat : Int))
  | .nan => false
  | .inf neg => !neg

/-- The exact rational value of a finite GoFloat, used only in theorem
statements. -/
def GoFloat.ratVal : GoFloat → Option ℚ
  | .dec m e => some ((m : ℚ) * 10 ^ e)
  | .nan => none
  | .inf _ => none

/-- ClassificationResult from classify.go; the zero value has an empty
class and confidence 0. -/
structure ClassificationResult where
  Class : String := ""
  Confidence : GoFloat := .dec 0 0
deriving DecidableEq

/-- Digit run to a natural number. -/
def digitsToNat (cs : List Char) : Nat :=
  cs.foldl (fun acc c => 10 * acc + (c.toNat - '0'.toNat)) 0

/-- Model of the decimal-literal part of strconv.ParseFloat: optional
sign, digits with an optional fraction, optional signed exponent, and
the whole input must be consumed. Hexadecimal floats and underscore
digit separators, which strconv.ParseFloat also accepts, are not
modelled (none arise in the claims). -/
def parseDecCore (cs : List Char) : Option GoFloat :=
  let signSplit : Bool × List Char :=
    match cs with
    | '+' :: r => (false, r)
    | '-' :: r => (true, r)
    | r => (false, r)
  let neg := signSplit.1
  let cs1 := signSplit.2
  let intPart := cs1.takeWhile Char.isDigit
  let rest1 := cs1.dropWhile Char.isDigit
  let fracSplit : List Char × List Char :=
    match rest1 with
    | '.' :: r => (r.takeWhile Char.isDigit, r.dropWhile Char.isDigit)
    | _ => ([], rest1)
  let fracPart := fracSplit.1
  let rest2 := fracSplit.2
  if intPart.isEmpty && fracPart.isEmpty then none
  else
    let m : Int :=
      if neg then -(digitsToNat (intPart ++ fracPart) : Int)
      else (digitsToNat (intPart ++ fracPart) : Int)
    match rest2 with
    | [] => some (.dec m (-(fracPart.length : Int)))
    | e :: r =>
      if e == 'E' || e == 'e' then
        let expSplit : Bool × List Char :=
          match r with
          | '+' :: rr => (false, rr)
          | '-' :: rr => (true, rr)
          | rr => (false, rr)
        let eDigits := expSplit.2.takeWhile Char.isDigit
        let r2 := expSplit.2.dropWhile Char.isDigit
        if eDigits.isEmpty || !r2.isEmpty then none
        else
          let ev : Int :=
            if expSplit.1 then -(digitsToNat eDigits : Int)
            else (digitsToNat eDigits : Int)
          some (.dec m (ev - (fracPart.length : Int)))
      else none

/-- Model of strconv.ParseFloat(s, 64) as used by the parser: the
case-insensitive special values NaN (unsigned) and Inf/Infinity
(optionally signed), else a decimal literal; none models a parse
error. -/
def parseGoFloat (cs : List Char) : Option GoFloat :=
  let up := cs.map Char.toUpper
  if up = "NAN".data then some .nan
  else if up = "INF".data || up = "INFINITY".data || up = "+INF".data ||
      up = "+INFINITY".data then some (.inf false)
  else if up = "-INF".data || up = "-INFINITY".data then some (.inf true)
  else parseDecCore cs

/-- The confidence-parsing tail of ParseClassificationResult (lines 111
to 123 of classify.go), split out of the function body for the proofs:
given the matched class and the trimmed remainder after it, parse the
first white-space-separated token as a float and keep it only when it
lies in (0, 1] under the float comparisons of the source. -/
def parseConfidence (matched : String) (remainder : List Char) : ClassificationResult :=
  if remainder.isEmpty then { Class := matched }
  else
    match parseGoFloat ((goFieldsL remainder).headD []) with
    | none => { Class := matched }
    | some conf =>
      if conf.leZero || conf.gtOne then { Class := matched }
      else { Class := matched, Confidence := conf }

/-- ParseClassificationResult from classify.go: trim and uppercase,
match a class label as a prefix (longest-label-first list), then parse
the confidence from the remainder. -/
def ParseClassificationResult (resp : String) : ClassificationResult :=
  let upper := goToUpperL (goTrimSpaceL resp.data)
  if upper.isEmpty then {}
  else
    match classificationClasses.find? (fun cls => listIsPre cls.data upper) with
    | none => {}
    | some matched =>
      parseConfidence matched (goTrimSpaceL (upper.drop matched.length))

/-- ParseVisionResponse from classify.go (deprecated three-class
parser). -/
def ParseVisionResponse (resp : String) : String :=
  let word := goToUpperL (goTrimSpaceL resp.data)
  if listIsPre ClassPhoto.data word then ClassPhoto
  else if listIsPre ClassStock.data word then ClassStock
  else if listIsPre ClassReject.data word then ClassReject
  else ""

/-! ## Perceptual duplicate filter (dedup.go) -/

/-- dedupThreshold from dedup.go. -/
def dedupThreshold : Nat := 10

/-- Fueled binary popcount; the fuel argument makes the recursion
structural so the kernel can evaluate it. With fuel n the value for n
is exact, since n halves at each step. -/
def popFuel : Nat → Nat → Nat
  | 0, _ => 0
  | f + 1, n => if n = 0 then 0 else n % 2 + popFuel f (n / 2)

/-- Number of set bits of a natural number. -/
def popCount (n : Nat) : Nat := popFuel n n

/-- Model of goimagehash Distance between two same-kind 64-bit hashes:
the popcount of the xor. Within one dedupFilter every stored hash comes
from DifferenceHash, so the kind-mismatch error branch of Distance
never fires and is not modelled. -/
def hammingDistance (a b : Nat) : Nat := popCount (a ^^^ b)

/-- isDuplicate from dedup.go, on an explicit store. The argument
models the outcome of goimagehash.DifferenceHash: none is a hashing
failure, which accepts the image without storing (graceful
degradation). Otherwise the new hash is compared against every stored
hash; within dedupThreshold of any of them it is reported duplicate
and not stored; otherwise it is appended. The Go method does all of
this under one mutex, so the store transition is atomic. -/
def isDuplicate (hashResult : Option Nat) (hashes : List Nat) : Bool × List Nat :=
  match hashResult with
  | none => (false, hashes)
  | some hash =>
    if hashes.any (fun h => hammingDistance hash h < dedupThreshold) then
      (true, hashes)
    else (false, hashes ++ [hash])

/-- One pipeline run of the duplicate filter: fold isDuplicate over the
sequence of hash outcomes, starting from the empty store of a fresh
dedupFilter. -/
def dedupRun (calls : List (Option Nat)) : List Nat :=
  calls.foldl (fun store h => (isDuplicate h store).2) []

/-! ## Candidate validation orchestrator (search.go) -/

/-- ClassificationEvent from classify.go. -/
structure ClassificationEvent where
  URL : String
  Class : String
  Confidence : GoFloat
  Source : String
deriving DecidableEq

/-- Observable actions of one validation run: an invocation of the
classifier collaborator, or a call of the OnClassification audit
callback. -/
inductive PipelineEvent where
  | classifierInvoked
  | classification (e : ClassificationEvent)
deriving DecidableEq

/-- Outcomes of the external calls made by one ClassifyImageFull
invocation: cacheHit is some r when a cache is configured and Get
returns true with r; downloadOK is the success of the vision-preview
download; response is the classifier reply or its error. -/
structure ClassifyEnv where
  cacheHit : Option ClassificationResult := none
  downloadOK : Bool := true
  response : Except Unit String := .error ()

/-- Outcomes of the external calls made while validating one candidate:
the HTTP probe verdict (ValidateImageURL), the decoded image and its
DifferenceHash outcome (none when no image was decoded), the extracted
metadata (none when absent or unparseable), and the classification
environment. -/
structure CandidateEnv where
  urlValid : Bool := true
  imgHash : Option (Option Nat) := none
  meta : Option ImageMetadata := none
  classify : ClassifyEnv := {}

/-- doClassifyFull from classify.go: a failed download returns the zero
result without invoking the classifier; a classifier error returns the
zero result without firing the audit callback; a reply is parsed and
audited with source llm when the callback is configured. -/
def Config.doClassifyFull (cfg : Config) (imageURL : String)
    (env : ClassifyEnv) : ClassificationResult × List PipelineEvent :=
  if !env.downloadOK then ({}, [])
  else
    match env.response with
    | .error _ => ({}, [.classifierInvoked])
    | .ok resp =>
      let result := ParseClassificationResult resp
      let audit :=
        if cfg.hasOnClassification then
          [.classification ⟨imageURL, result.Class, result.Confidence, "llm"⟩]
        else []
      (result, .classifierInvoked :: audit)

/-- ClassifyImageFull from classify.go: no classifier yields the zero
result (accept); a cache hit returns the cached result without calling
the classifier; otherwise doClassifyFull runs (the Set call on the
cache has no observable effect in the model). -/
def Config.ClassifyImageFull (cfg : Config) (imageURL : String)
    (env : ClassifyEnv) : ClassificationResult × List PipelineEvent :=
  if !cfg.hasClassifier then ({}, [])
  else
    match env.cacheHit with
    | some cached => (cached, [])
    | none => cfg.doClassifyFull imageURL env

/-- IsRealPhoto from classify.go: accept on class PHOTO or on the empty
class (graceful degradation). -/
def Config.IsRealPhoto (cfg : Config) (imageURL : String)
    (env : ClassifyEnv) : Bool × List PipelineEvent :=
  let r := cfg.ClassifyImageFull imageURL env
  (r.1.Class == ClassPhoto || r.1.Class == "", r.2)

/-- The shared state of one validation run: the validated list guarded
by the orchestrator mutex, and the hash store of the run-scoped
dedupFilter. -/
structure ValidateState where
  validated : List ImageCandidate := []
  hashes : List Nat := []
deriving DecidableEq

/-- The dedup stage of validateOne: isDuplicate runs only when a
decoded image is present. -/
def dedupStep (imgHash : Option (Option Nat)) (hashes : List Nat) : Bool × List Nat :=
  match imgHash with
  | none => (false, hashes)
  | some hres => isDuplicate hres hashes

/-- The guarded append of validateOne: under the mutex, append only
while the validated list is below maxResults (Go int, modelled as
Int). -/
def guardedAppend (validated : List ImageCandidate) (cand : ImageCandidate)
    (maxResults : Int) : List ImageCandidate :=
  if (validated.length : Int) < maxResults then validated ++ [cand] else validated

/-- validateOne from search.go: probe the URL, dedup on the decoded
image, assess the license, and for an Unknown verdict fall through to
the vision classifier. Blocked rejects with a stock audit event; Safe
accepts with a photo audit event and bypasses classification. The
returned event list collects the classifier invocations and audit
callback firings caused by this candidate. -/
def Config.validateOne (cfg : Config) (cand : ImageCandidate)
    (env : CandidateEnv) (maxResults : Int) (st : ValidateState) :
    ValidateState × List PipelineEvent :=
  if !env.urlValid then (st, [])
  else
    let ded := dedupStep env.imgHash st.hashes
    if ded.1 then ({ st with hashes := ded.2 }, [])
    else
      let st1 : ValidateState := { st with hashes := ded.2 }
      let assessment := cfg.AssessLicense cand env.meta
      if assessment.License = .blocked then
        (st1,
         if cfg.hasOnClassification then
           [.classification ⟨cand.ImgURL, ClassStock, .dec 0 0, "license_assessment"⟩]
         else [])
      else if assessment.License = .safe then
        ({ st1 with validated := guardedAppend st1.validated cand maxResults },
         if cfg.hasOnClassification then
           [.classification ⟨cand.ImgURL, ClassPhoto, .dec 1 0, "license_assessment"⟩]
         else [])
      else
        let rp := cfg.IsRealPhoto cand.ImgURL env.classify
        if !rp.1 then (st1, rp.2)
        else
          ({ st1 with validated := guardedAppend st1.validated cand maxResults }, rp.2)

/-- What one run of the orchestrator produced: the validated result
list, the candidates for which a worker was dispatched, and the
observable events of all workers. -/
structure RunOut where
  validated : List ImageCandidate
  dispatched : List ImageCandidate
  events : List PipelineEvent
deriving DecidableEq

/-- The dispatch loop of validateCandidates from search.go: before each
candidate, the shared count is read under the mutex and dispatching
stops once it has reached maxResults; otherwise a worker runs
validateOne for the candidate. The Go loop runs workers concurrently
under a 3-slot semaphore; since every shared-state access is under the
mutex, the model executes the bodies in dispatch order. -/
def Config.validateLoop (cfg : Config) (envOf : ImageCandidate → CandidateEnv)
    (maxResults : Int) : List ImageCandidate → ValidateState → RunOut
  | [], st => ⟨st.validated, [], []⟩
  | c :: rest, st =>
    if (st.validated.length : Int) ≥ maxResults then ⟨st.validated, [], []⟩
    else
      let step := cfg.validateOne c (envOf c) maxResults st
      let out := cfg.validateLoop envOf maxResults rest step.1
      ⟨out.validated, c :: out.dispatched, step.2 ++ out.events⟩

/-- validateCandidates from search.go: run the dispatch loop from the
empty shared state and a fresh dedupFilter. -/
def Config.validateCandidates (cfg : Config) (envOf : ImageCandidate → CandidateEnv)
    (toValidate : List ImageCandidate) (maxResults : Int) : RunOut :=
  cfg.validateLoop envOf maxResults toValidate {}

/-- searxngResult from search.go. -/
structure SearxngResult where
  ImgSrc : String := ""
  Thumbnail : String := ""
  URL : String := ""
  Title : String := ""
deriving DecidableEq

/-- filterCandidates from search.go: drop results without an image URL,
logo/banner URLs, and results whose domain check says Blocked; the
remaining results become candidates carrying their domain verdict. -/
def Config.filterCandidates : Config → List SearxngResult → List ImageCandidate
  | _, [] => []
  | cfg, r :: rest =>
    if r.ImgSrc == "" then cfg.filterCandidates rest
    else if IsLogoOrBanner (goToLower r.ImgSrc) then cfg.filterCandidates rest
    else
      let license := CheckLicense r.ImgSrc r.URL
      if license = .blocked then cfg.filterCandidates rest
      else ⟨r.ImgSrc, r.Thumbnail, r.URL, r.Title, license⟩ :: cfg.filterCandidates rest

/-- The pre-dispatch sort of SearchImages: sort.SliceStable with the
strict order (License i < License j) equals a stable merge sort with
the total order (rank i <= rank j). -/
def sortByLicense (cands : List ImageCandidate) : List ImageCandidate :=
  cands.mergeSort (fun a b => licenseRank a.License ≤ licenseRank b.License)

/-! ## Theorems about the license resolver (claims C1 and C9) -/

/-- The resolution loop of AssessLicense computes: Blocked if any
signal is Blocked, else Safe if any signal is Safe, else the starting
accumulator. -/
theorem resolveLoop_eq (l : List LicenseSignal) : ∀ acc, resolveLoop acc l =
    if l.any (fun s => s.License == .blocked) then .blocked
    else if l.any (fun s => s.License == .safe) then .safe
    else acc := by
  induction l with
  | nil => intro acc; simp [resolveLoop]
  | cons sig rest ih =>
    intro acc
    cases hl : sig.License with
    | blocked => simp [resolveLoop, hl]
    | safe => simp [resolveLoop, hl, ih]
    | unknown => simp [resolveLoop, hl, ih]

/-- Claim C1: for every candidate and every possibly absent metadata
record, the final verdict of AssessLicense is Blocked if any emitted
signal carries Blocked, otherwise Safe if any emitted signal carries
Safe, otherwise Unknown (the spec-worded resolution, specFinalVerdict);
and when a stock-metadata signal and a CC-metadata signal are both
present (their emission conditions hold), the final verdict is
Blocked. -/
theorem assessLicense_resolution (cfg : Config) (cand : ImageCandidate)
    (meta : Option ImageMetadata) :
    (cfg.AssessLicense cand meta).License =
      specFinalVerdict (cfg.AssessLicense cand meta).Signals
    ∧ (IsStockByMetadata meta = true → IsCCByMetadata meta = true →
        (cfg.AssessLicense cand meta).License = .blocked) := by
  constructor
  · rw [Config.AssessLicense, specFinalVerdict, resolveLoop_eq]
  · intro hStock _
    rw [Config.AssessLicense]
    show resolveLoop .unknown (assessSignals cfg cand meta) = .blocked
    rw [resolveLoop_eq]
    have hb : (assessSignals cfg cand meta).any (fun s => s.License == .blocked) = true := by
      rw [assessSignals, stockSignal, if_pos hStock]
      simp
    simp [hb]

/-- Metadata record carrying both a stock-agency fingerprint and a CC
license reference, for the C1 witness. -/
def metaBoth : ImageMetadata :=
  { DCRights := "shutterstock",
    XMPLicense := "https://creativecommons.org/licenses/by/4.0/" }

/-- Witness for C1: on a concrete candidate and metadata with both a
stock signal and a CC signal, the verdict is Blocked. -/
theorem assessLicense_resolution_witness :
    IsStockByMetadata (some metaBoth) = true ∧ IsCCByMetadata (some metaBoth) = true ∧
      (Config.AssessLicense {} ⟨"u", "t", "s", "ti", .unknown⟩ (some metaBoth)).License =
        .blocked :=
  ⟨by decide, by decide,
    (assessLicense_resolution {} ⟨"u", "t", "s", "ti", .unknown⟩ (some metaBoth)).2
      (by decide) (by decide)⟩

/-- Position of a signal source tag in the fixed order the spec states:
domain, extra_domain, metadata_stock, metadata_cc; 4 for anything
else. -/
def signalRank (src : String) : Nat :=
  if src = "domain" then 0
  else if src = "extra_domain" then 1
  else if src = "metadata_stock" then 2
  else if src = "metadata_cc" then 3
  else 4

/-- A list with at most one element is vacuously pairwise ordered. -/
theorem pairwise_thin {R : LicenseSignal → LicenseSignal → Prop}
    {l : List LicenseSignal} (h : l.length ≤ 1) : l.Pairwise R := by
  match l with
  | [] => exact List.Pairwise.nil
  | [x] => simp
  | x :: y :: rest => simp at h

/-- Every signal emitted by the domain stage carries source tag
domain. -/
theorem domainSignal_src {cand : ImageCandidate} :
    ∀ s ∈ domainSignal cand, s.Source = "domain" := by
  unfold domainSignal; cases cand.License <;> simp

/-- The domain stage emits at most one signal. -/
theorem domainSignal_thin {cand : ImageCandidate} : (domainSignal cand).length ≤ 1 := by
  unfold domainSignal; cases cand.License <;> simp

/-- Every signal emitted by the extended-domain stage carries source
tag extra_domain. -/
theorem extraDomainSignal_src {cfg : Config} {cand : ImageCandidate} :
    ∀ s ∈ extraDomainSignal cfg cand, s.Source = "extra_domain" := by
  unfold extraDomainSignal extSignalOf
  split
  · split <;> simp
  · simp

/-- The extended-domain stage emits at most one signal. -/
theorem extraDomainSignal_thin {cfg : Config} {cand : ImageCandidate} :
    (extraDomainSignal cfg cand).length ≤ 1 := by
  unfold extraDomainSignal extSignalOf
  split
  · split <;> simp
  · simp

/-- Every signal emitted by the metadata stock stage carries source tag
metadata_stock. -/
theorem stockSignal_src {meta : Option ImageMetadata} :
    ∀ s ∈ stockSignal meta, s.Source = "metadata_stock" := by
  unfold stockSignal; split <;> simp

/-- The metadata stock stage emits at most one signal. -/
theorem stockSignal_thin {meta : Option ImageMetadata} :
    (stockSignal meta).length ≤ 1 := by
  unfold stockSignal; split <;> simp

/-- Every signal emitted by the metadata CC stage carries source tag
metadata_cc. -/
theorem ccSignal_src {meta : Option ImageMetadata} :
    ∀ s ∈ ccSignal meta, s.Source = "metadata_cc" := by
  unfold ccSignal; split <;> simp

/-- The metadata CC stage emits at most one signal. -/
theorem ccSignal_thin {meta : Option ImageMetadata} : (ccSignal meta).length ≤ 1 := by
  unfold ccSignal; split <;> simp

/-- Claim C9: the signal list of AssessLicense is a total value of the
model (in Go it is allocated with make and never nil), its signals are
strictly ordered by the fixed source order domain, extra_domain,
metadata_stock, metadata_cc, and every signal carries one of those four
source tags, regardless of which signal wins. -/
theorem assessLicense_signal_order (cfg : Config) (cand : ImageCandidate)
    (meta : Option ImageMetadata) :
    (cfg.AssessLicense cand meta).Signals.Pairwise
      (fun a b => signalRank a.Source < signalRank b.Source)
    ∧ ∀ s ∈ (cfg.AssessLicense cand meta).Signals, signalRank s.Source < 4 := by
  rw [Config.AssessLicense]
  show (assessSignals cfg cand meta).Pairwise _ ∧ _
  rw [assessSignals]
  constructor
  · refine List.pairwise_append.2 ⟨List.pairwise_append.2 ⟨List.pairwise_append.2
      ⟨pairwise_thin domainSignal_thin, pairwise_thin extraDomainSignal_thin, ?_⟩,
        pairwise_thin stockSignal_thin, ?_⟩, pairwise_thin ccSignal_thin, ?_⟩
    · intro a ha b hb
      rw [domainSignal_src a ha, extraDomainSignal_src b hb]; decide
    · intro a ha b hb
      rw [stockSignal_src b hb]
      rcases List.mem_append.1 ha with ha | ha
      · rw [domainSignal_src a ha]; decide
      · rw [extraDomainSignal_src a ha]; decide
    · intro a ha b hb
      rw [ccSignal_src b hb]
      rcases List.mem_append.1 ha with ha | ha
      · rcases List.mem_append.1 ha with ha | ha
        · rw [domainSignal_src a ha]; decide
        · rw [extraDomainSignal_src a ha]; decide
      · rw [stockSignal_src a ha]; decide
  · intro s hs
    rcases List.mem_append.1 hs with h | h
    · rcases List.mem_append.1 h with h | h
      · rcases List.mem_append.1 h with h | h
        · rw [domainSignal_src s h]; decide
        · rw [extraDomainSignal_src s h]; decide
      · rw [stockSignal_src s h]; decide
    · rw [ccSignal_src s h]; decide

/-- Witness for C9: on a concrete Safe candidate the single emitted
signal carries one of the four fixed source tags. -/
theorem assessLicense_signal_order_witness :
    signalRank (LicenseSignal.mk "domain" "safe by search-time domain check: s" .safe).Source < 4 :=
  (assessLicense_signal_order {} ⟨"u", "t", "s", "ti", .safe⟩ none).2
    ⟨"domain", "safe by search-time domain check: s", .safe⟩ (by decide)

/-! ## Theorems about the duplicate filter (claim C6) -/

/-- Hamming distance is symmetric. -/
theorem hammingDistance_comm (a b : Nat) : hammingDistance a b = hammingDistance b a := by
  unfold hammingDistance
  rw [Nat.xor_comm]

/-- A store is separated when no two stored fingerprints are within the
duplicate threshold of each other. -/
def sepStore (hashes : List Nat) : Prop :=
  hashes.Pairwise (fun a b => ¬ hammingDistance a b < dedupThreshold)

/-- One isDuplicate call preserves separation of the store. -/
theorem isDuplicate_sep (hres : Option Nat) (store : List Nat) (hs : sepStore store) :
    sepStore (isDuplicate hres store).2 := by
  rcases hres with _ | hash
  · exact hs
  · simp only [isDuplicate]
    split
    · exact hs
    · rename_i hany
      simp only [List.any_eq_true, not_exists, decide_eq_true_eq, not_and] at hany
      refine List.pairwise_append.2 ⟨hs, by simp, ?_⟩
      intro a ha b hb
      rw [List.mem_singleton] at hb
      subst hb
      intro hlt
      exact hany a ha (by rwa [hammingDistance_comm] at hlt)

/-- Every fold of isDuplicate calls starting from a separated store
keeps the store separated. -/
theorem dedupRun_sep (calls : List (Option Nat)) : sepStore (dedupRun calls) := by
  have h : ∀ store, sepStore store →
      sepStore (calls.foldl (fun st hh => (isDuplicate hh st).2) store) := by
    induction calls with
    | nil => intro store hs; exact hs
    | cons c rest ih =>
      intro store hs
      exact ih _ (isDuplicate_sep c store hs)
  exact h [] List.Pairwise.nil

/-- Claim C6: over every sequence of isDuplicate calls of one pipeline
run, the store never contains two fingerprints within the duplicate
threshold (10 bits) of each other; and per call, a fingerprint within
the threshold of some stored fingerprint is reported duplicate and not
stored, while a fingerprint not within the threshold of any stored
fingerprint is reported unique and appended. -/
theorem dedupFilter_invariant :
    (∀ calls : List (Option Nat), sepStore (dedupRun calls))
    ∧ ∀ (store : List Nat) (h : Nat),
        ((∃ h2 ∈ store, hammingDistance h h2 < dedupThreshold) →
          isDuplicate (some h) store = (true, store))
        ∧ ((∀ h2 ∈ store, ¬ hammingDistance h h2 < dedupThreshold) →
          isDuplicate (some h) store = (false, store ++ [h])) := by
  refine ⟨dedupRun_sep, fun store h => ⟨?_, ?_⟩⟩
  · intro hex
    have hcond : (store.any fun h2 => hammingDistance h h2 < dedupThreshold) = true := by
      simp only [List.any_eq_true, decide_eq_true_eq]
      exact hex
    simp [isDuplicate, hcond]
  · intro hall
    have hcond : (store.any fun h2 => hammingDistance h h2 < dedupThreshold) = false := by
      simp only [List.any_eq_false, decide_eq_true_eq]
      exact hall
    simp [isDuplicate, hcond]

/-- Witness for C6: the fingerprint 3 is within threshold of the stored
fingerprint 0 (distance 2), so it is reported duplicate and the store
is unchanged. -/
theorem dedupFilter_invariant_witness : isDuplicate (some 3) [0] = (true, [0]) :=
  (dedupFilter_invariant.2 [0] 3).1 ⟨0, by decide, by decide⟩

/-! ## Theorems about the classification parser (claims C7 and C8) -/

/-- Claim C7: the four spec test vectors of the classification response
parser, with confidences read off as exact rationals. -/
theorem parseClassification_vectors :
    ((ParseClassificationResult "PHOTO 0.92").Class = "PHOTO"
      ∧ (ParseClassificationResult "PHOTO 0.92").Confidence.ratVal = some 0.92)
    ∧ ((ParseClassificationResult "stock - shutterstock watermark").Class = "STOCK"
      ∧ (ParseClassificationResult "stock - shutterstock watermark").Confidence.ratVal = some 0)
    ∧ ((ParseClassificationResult "I cannot classify this").Class = ""
      ∧ (ParseClassificationResult "I cannot classify this").Confidence.ratVal = some 0)
    ∧ ((ParseClassificationResult "SCREENSHOT 1.5").Class = "SCREENSHOT"
      ∧ (ParseClassificationResult "SCREENSHOT 1.5").Confidence.ratVal = some 0) := by
  refine ⟨⟨by decide, ?_⟩, ⟨by decide, ?_⟩, ⟨by decide, ?_⟩, ⟨by decide, ?_⟩⟩
  · rw [show (ParseClassificationResult "PHOTO 0.92").Confidence = .dec 92 (-2) from by decide]
    unfold GoFloat.ratVal
    norm_num
  · rw [show (ParseClassificationResult "stock - shutterstock watermark").Confidence =
      .dec 0 0 from by decide]
    unfold GoFloat.ratVal
    norm_num
  · rw [show (ParseClassificationResult "I cannot classify this").Confidence =
      .dec 0 0 from by decide]
    unfold GoFloat.ratVal
    norm_num
  · rw [show (ParseClassificationResult "SCREENSHOT 1.5").Confidence = .dec 0 0 from by decide]
    unfold GoFloat.ratVal
    norm_num

/-- Claim C8 fails on the code: on the input "photo nan" the parser
returns class PHOTO with confidence NaN, because NaN passes both range
checks (every float comparison with NaN is false), contradicting the
requirement that the confidence be 0 or lie in (0, 1] (and the own
documentation of the function, which promises confidence 0 outside
(0, 1]). NaN has no rational value and is distinct from the zero
confidence. -/
theorem parseClassification_nan_leak :
    ParseClassificationResult "photo nan" = { Class := "PHOTO", Confidence := .nan }
    ∧ GoFloat.nan.ratVal = none
    ∧ (GoFloat.nan ≠ .dec 0 0) := by
  refine ⟨by decide, rfl, by decide⟩

/-! ## Refinement of the legacy parser (claim C10) -/

/-- A successful prefix test exposes the first character of the
input. -/
theorem listIsPre_cons {a : Char} {as l : List Char} (h : listIsPre (a :: as) l = true) :
    ∃ bs, l = a :: bs ∧ listIsPre as bs = true := by
  cases l with
  | nil => simp [listIsPre] at h
  | cons b bs =>
    simp only [listIsPre, Bool.and_eq_true, beq_iff_eq] at h
    exact ⟨bs, by rw [h.1], h.2⟩

/-- Prefix test fails when the first characters differ. -/
theorem listIsPre_ne1 {a b : Char} (hne : (a == b) = false) (as bs : List Char) :
    listIsPre (a :: as) (b :: bs) = false := by
  simp [listIsPre, hne]

/-- Prefix test fails when the second characters differ. -/
theorem listIsPre_ne2 {a c d : Char} (hne : (c == d) = false) (as bs : List Char) :
    listIsPre (a :: c :: as) (a :: d :: bs) = false := by
  simp [listIsPre, hne]

/-- When PHOTO is a prefix of the normalized input, the longest-first
label scan matches PHOTO: no other label can be a prefix of the same
input, since no two of the six labels share their first two
characters except by being equal. -/
theorem find_photo {u : List Char} (h : listIsPre ClassPhoto.data u = true) :
    classificationClasses.find? (fun cls => listIsPre cls.data u) = some ClassPhoto := by
  obtain ⟨bs, rfl, -⟩ := listIsPre_cons (show listIsPre ('P' :: "HOTO".data) u = true from h)
  have h1 : listIsPre ClassIllustration.data ('P' :: bs) = false :=
    listIsPre_ne1 (by decide) "LLUSTRATION".data bs
  have h2 : listIsPre ClassScreenshot.data ('P' :: bs) = false :=
    listIsPre_ne1 (by decide) "CREENSHOT".data bs
  have h3 : listIsPre ClassReject.data ('P' :: bs) = false :=
    listIsPre_ne1 (by decide) "EJECT".data bs
  simp only [classificationClasses, List.find?, h1, h2, h3, h]

/-- When STOCK is a prefix of the normalized input, the longest-first
label scan matches STOCK; the SCREENSHOT check fails at the second
character. -/
theorem find_stock {u : List Char} (h : listIsPre ClassStock.data u = true) :
    classificationClasses.find? (fun cls => listIsPre cls.data u) = some ClassStock := by
  obtain ⟨bs1, rfl, hrest⟩ :=
    listIsPre_cons (show listIsPre ('S' :: "TOCK".data) u = true from h)
  obtain ⟨bs2, rfl, -⟩ :=
    listIsPre_cons (show listIsPre ('T' :: "OCK".data) bs1 = true from hrest)
  have h1 : listIsPre ClassIllustration.data ('S' :: 'T' :: bs2) = false :=
    listIsPre_ne1 (by decide) "LLUSTRATION".data ('T' :: bs2)
  have h2 : listIsPre ClassScreenshot.data ('S' :: 'T' :: bs2) = false :=
    listIsPre_ne2 (by decide) "REENSHOT".data bs2
  have h3 : listIsPre ClassReject.data ('S' :: 'T' :: bs2) = false :=
    listIsPre_ne1 (by decide) "EJECT".data ('T' :: bs2)
  have h4 : listIsPre ClassPhoto.data ('S' :: 'T' :: bs2) = false :=
    listIsPre_ne1 (by decide) "HOTO".data ('T' :: bs2)
  simp only [classificationClasses, List.find?, h1, h2, h3, h4, h]

/-- When REJECT is a prefix of the normalized input, the longest-first
label scan matches REJECT. -/
theorem find_reject {u : List Char} (h : listIsPre ClassReject.data u = true) :
    classificationClasses.find? (fun cls => listIsPre cls.data u) = some ClassReject := by
  obtain ⟨bs, rfl, -⟩ := listIsPre_cons (show listIsPre ('R' :: "EJECT".data) u = true from h)
  have h1 : listIsPre ClassIllustration.data ('R' :: bs) = false :=
    listIsPre_ne1 (by decide) "LLUSTRATION".data bs
  have h2 : listIsPre ClassScreenshot.data ('R' :: bs) = false :=
    listIsPre_ne1 (by decide) "CREENSHOT".data bs
  simp only [classificationClasses, List.find?, h1, h2, h]

/-- The class of the confidence-parsing tail is always the matched
label, whatever the remainder holds. -/
theorem parseConfidence_Class (matched : String) (remainder : List Char) :
    (parseConfidence matched remainder).Class = matched := by
  unfold parseConfidence
  split
  · rfl
  · split
    · rfl
    · split <;> rfl

/-- Claim C10: on every input where the deprecated three-class parser
ParseVisionResponse answers a non-empty class, the six-class parser
ParseClassificationResult returns the same class. -/
theorem parse_refinement (s : String) (h : ParseVisionResponse s ≠ "") :
    (ParseClassificationResult s).Class = ParseVisionResponse s := by
  simp only [ParseVisionResponse] at h ⊢
  simp only [ParseClassificationResult]
  by_cases hP : listIsPre ClassPhoto.data (goToUpperL (goTrimSpaceL s.data)) = true
  · rw [if_pos hP]
    obtain ⟨bs, hu, -⟩ :=
      listIsPre_cons (show listIsPre ('P' :: "HOTO".data) _ = true from hP)
    rw [hu] at hP ⊢
    rw [show ('P' :: bs).isEmpty = false from rfl, if_neg (by simp), find_photo hP]
    exact parseConfidence_Class _ _
  · rw [if_neg hP] at h ⊢
    by_cases hS : listIsPre ClassStock.data (goToUpperL (goTrimSpaceL s.data)) = true
    · rw [if_pos hS]
      obtain ⟨bs1, hu, hrest⟩ :=
        listIsPre_cons (show listIsPre ('S' :: "TOCK".data) _ = true from hS)
      obtain ⟨bs2, hu2, -⟩ :=
        listIsPre_cons (show listIsPre ('T' :: "OCK".data) bs1 = true from hrest)
      rw [hu2] at hu
      rw [hu] at hS ⊢
      rw [show ('S' :: 'T' :: bs2).isEmpty = false from rfl, if_neg (by simp), find_stock hS]
      exact parseConfidence_Class _ _
    · rw [if_neg hS] at h ⊢
      by_cases hR : listIsPre ClassReject.data (goToUpperL (goTrimSpaceL s.data)) = true
      · rw [if_pos hR]
        obtain ⟨bs, hu, -⟩ :=
          listIsPre_cons (show listIsPre ('R' :: "EJECT".data) _ = true from hR)
        rw [hu] at hR ⊢
        rw [show ('R' :: bs).isEmpty = false from rfl, if_neg (by simp), find_reject hR]
        exact parseConfidence_Class _ _
      · rw [if_neg hR] at h
        exact absurd rfl h

/-- Witness for C10: on a concrete legacy-parseable response both
parsers answer REJECT. -/
theorem parse_refinement_witness :
    (ParseClassificationResult "reject - promotional banner").Class =
      ParseVisionResponse "reject - promotional banner" :=
  parse_refinement "reject - promotional banner" (by decide)

/-! ## Theorems about the orchestrator (claims C2, C3, C4, C5) -/

/-- validateOne leaves the validated list unchanged or, only when the
list was below maxResults, appends exactly its candidate. -/
theorem validateOne_validated (cfg : Config) (cand : ImageCandidate) (env : CandidateEnv)
    (maxResults : Int) (st : ValidateState) :
    ((cfg.validateOne cand env maxResults st).1.validated = st.validated) ∨
    ((st.validated.length : Int) < maxResults ∧
      (cfg.validateOne cand env maxResults st).1.validated = st.validated ++ [cand]) := by
  simp only [Config.validateOne]
  split
  · left; rfl
  · split
    · left; rfl
    · split
      · left; rfl
      · split
        · unfold guardedAppend
          split
          · rename_i hlt; right; exact ⟨hlt, rfl⟩
          · left; rfl
        · split
          · left; rfl
          · unfold guardedAppend
            split
            · rename_i hlt; right; exact ⟨hlt, rfl⟩
            · left; rfl

/-- The validated list of the dispatch loop never grows beyond
maxResults (or beyond its starting length when that is already
larger). -/
theorem validateLoop_length (cfg : Config) (envOf : ImageCandidate → CandidateEnv)
    (maxResults : Int) :
    ∀ (cands : List ImageCandidate) (st : ValidateState),
      (((cfg.validateLoop envOf maxResults cands st).validated.length : Int)) ≤
        max maxResults (st.validated.length : Int) := by
  intro cands
  induction cands with
  | nil => intro st; exact le_max_right _ _
  | cons c rest ih =>
    intro st
    simp only [Config.validateLoop]
    split
    · exact le_max_right _ _
    · rename_i hge
      have h2 := ih (cfg.validateOne c (envOf c) maxResults st).1
      rcases validateOne_validated cfg c (envOf c) maxResults st with hEq | ⟨hlt2, hEq⟩
      · rw [hEq] at h2; exact h2
      · rw [hEq] at h2
        simp only [List.length_append, List.length_singleton] at h2
        push_cast at h2
        rw [max_eq_left (by omega)] at h2
        exact h2.trans (le_max_left _ _)

/-- Every candidate the dispatch loop dispatched came from its input
worklist. -/
theorem validateLoop_dispatched (cfg : Config) (envOf : ImageCandidate → CandidateEnv)
    (maxResults : Int) :
    ∀ (cands : List ImageCandidate) (st : ValidateState),
      ∀ c ∈ (cfg.validateLoop envOf maxResults cands st).dispatched, c ∈ cands := by
  intro cands
  induction cands with
  | nil => intro st c hc; exact absurd hc (by simp [Config.validateLoop])
  | cons a rest ih =>
    intro st c hc
    simp only [Config.validateLoop] at hc
    split at hc
    · exact absurd hc (by simp)
    · rcases List.mem_cons.1 hc with rfl | hc
      · exact List.mem_cons_self _ _
      · exact List.mem_cons_of_mem _ (ih _ c hc)

/-- Claim C2: for every candidate list and every maxResults, the
orchestrator result never holds more than maxResults entries, it is
empty when the candidate list is empty, and a zero or negative
maxResults dispatches no candidate and yields an empty result. -/
theorem validateCandidates_bounds (cfg : Config) (envOf : ImageCandidate → CandidateEnv)
    (cands : List ImageCandidate) (maxResults : Int) :
    (((cfg.validateCandidates envOf cands maxResults).validated.length : Int) ≤
        max maxResults 0)
    ∧ (cands = [] → (cfg.validateCandidates envOf cands maxResults).validated = [])
    ∧ (maxResults ≤ 0 →
        (cfg.validateCandidates envOf cands maxResults).dispatched = []
        ∧ (cfg.validateCandidates envOf cands maxResults).validated = []) := by
  refine ⟨?_, ?_, ?_⟩
  · have h := validateLoop_length cfg envOf maxResults cands {}
    simpa using h
  · rintro rfl
    rfl
  · intro hle
    cases cands with
    | nil => exact ⟨rfl, rfl⟩
    | cons c rest =>
      unfold Config.validateCandidates Config.validateLoop
      rw [if_pos (by simp; omega)]
      exact ⟨rfl, rfl⟩

/-- Environment used by the orchestrator witnesses: the probe passes,
nothing further is configured. -/
def envAllPass : CandidateEnv := {}

/-- Witness for C2: with zero maxResults nothing is dispatched and the
result is empty, already on a nonempty candidate list. -/
theorem validateCandidates_bounds_witness :
    (Config.validateCandidates {} (fun _ => envAllPass)
        [⟨"u", "t", "s", "ti", .safe⟩] 0).dispatched = []
    ∧ (Config.validateCandidates {} (fun _ => envAllPass)
        [⟨"u", "t", "s", "ti", .safe⟩] 0).validated = [] :=
  (validateCandidates_bounds {} (fun _ => envAllPass)
    [⟨"u", "t", "s", "ti", .safe⟩] 0).2.2 (by decide)

/-- Every candidate filterCandidates lets through carries a verdict
other than Blocked. -/
theorem filterCandidates_not_blocked (cfg : Config) (results : List SearxngResult) :
    ∀ c ∈ cfg.filterCandidates results, c.License ≠ .blocked := by
  induction results with
  | nil => simp [Config.filterCandidates]
  | cons r rest ih =>
    simp only [Config.filterCandidates]
    split
    · exact ih
    · split
      · exact ih
      · split
        · exact ih
        · intro c hc
          rcases List.mem_cons.1 hc with rfl | hc
          · rename_i hnb
            exact hnb
          · exact ih c hc

/-- Claim C3: a Blocked candidate never enters the orchestrator
worklist: filterCandidates removes Blocked candidates before
validation, and every candidate the orchestrator dispatches from the
sorted filtered worklist is non-Blocked. -/
theorem blocked_never_dispatched (cfg : Config) (results : List SearxngResult)
    (envOf : ImageCandidate → CandidateEnv) (maxResults : Int) :
    (∀ c ∈ cfg.filterCandidates results, c.License ≠ .blocked)
    ∧ (∀ c ∈ (cfg.validateCandidates envOf
          (sortByLicense (cfg.filterCandidates results)) maxResults).dispatched,
        c.License ≠ .blocked) := by
  refine ⟨filterCandidates_not_blocked cfg results, ?_⟩
  intro c hc
  have h1 := validateLoop_dispatched cfg envOf maxResults _ {} c hc
  have h2 : c ∈ cfg.filterCandidates results := by
    rw [sortByLicense] at h1
    exact List.mem_mergeSort.1 h1
  exact filterCandidates_not_blocked cfg results c h2

/-- Witness for C3: a concrete unknown-domain result survives the
filter and its candidate is non-Blocked. -/
theorem blocked_never_dispatched_witness :
    (ImageCandidate.mk "https://example.com/a.jpg" "" "https://example.com/page" "t"
        .unknown).License ≠ .blocked :=
  (blocked_never_dispatched {} [⟨"https://example.com/a.jpg", "", "https://example.com/page", "t"⟩]
    (fun _ => envAllPass) 3).1
    ⟨"https://example.com/a.jpg", "", "https://example.com/page", "t", .unknown⟩
    (by decide)

/-- Number of audit callback firings from the classification path
(source llm) in an event list. -/
def llmAuditCount (evs : List PipelineEvent) : Nat :=
  evs.countP fun ev =>
    match ev with
    | .classification e => e.Source == "llm"
    | _ => false

/-- Claim C4: when a candidate passes the probe and the duplicate check
and its license assessment resolves to Safe, validateOne never invokes
the classifier (zero classifier invocations in its event trace), and
the candidate is accepted whenever the shared list is below the
quota. -/
theorem safe_bypasses_classification (cfg : Config) (cand : ImageCandidate)
    (env : CandidateEnv) (maxResults : Int) (st : ValidateState)
    (hurl : env.urlValid = true)
    (hdup : (dedupStep env.imgHash st.hashes).1 = false)
    (hsafe : (cfg.AssessLicense cand env.meta).License = .safe) :
    ((cfg.validateOne cand env maxResults st).2.count .classifierInvoked = 0)
    ∧ ((st.validated.length : Int) < maxResults →
        (cfg.validateOne cand env maxResults st).1.validated = st.validated ++ [cand]) := by
  simp only [Config.validateOne, hurl, hdup, hsafe, Bool.not_true, Bool.false_eq_true,
    if_false, reduceCtorEq, ite_false, ite_true]
  constructor
  · split <;> rfl
  · intro hlt
    simp [guardedAppend, hlt]

/-- Candidate used by the C4 and C5 witnesses. -/
def candSafe : ImageCandidate := ⟨"https://example.com/c.jpg", "", "p", "t", .safe⟩

/-- Witness for C4: a concrete Safe candidate is appended and the event
trace holds no classifier invocation. -/
theorem safe_bypasses_classification_witness :
    ((Config.validateOne {} candSafe envAllPass 2 {}).2.count .classifierInvoked = 0)
    ∧ (Config.validateOne {} candSafe envAllPass 2 {}).1.validated = [candSafe] :=
  ⟨(safe_bypasses_classification {} candSafe envAllPass 2 {} rfl rfl (by decide)).1,
    (safe_bypasses_classification {} candSafe envAllPass 2 {} rfl rfl (by decide)).2
      (by decide)⟩

/-- Claim C5: for an Unknown-license candidate reaching the
classification step (probe passed, not a duplicate, assessment
Unknown): with no classifier configured, or with a classifier error on
a cache miss, the candidate is still accepted (below quota) and the
audit callback never fires from the classification path; a reply whose
parsed class is REJECT or STOCK rejects the candidate. -/
theorem unknown_classification_outcomes (cfg : Config) (cand : ImageCandidate)
    (env : CandidateEnv) (maxResults : Int) (st : ValidateState)
    (hurl : env.urlValid = true)
    (hdup : (dedupStep env.imgHash st.hashes).1 = false)
    (hunk : (cfg.AssessLicense cand env.meta).License = .unknown) :
    (cfg.hasClassifier = false →
        llmAuditCount (cfg.validateOne cand env maxResults st).2 = 0
        ∧ ((st.validated.length : Int) < maxResults →
            (cfg.validateOne cand env maxResults st).1.validated = st.validated ++ [cand]))
    ∧ (env.classify.cacheHit = none → env.classify.response = .error () →
        llmAuditCount (cfg.validateOne cand env maxResults st).2 = 0
        ∧ ((st.validated.length : Int) < maxResults →
            (cfg.validateOne cand env maxResults st).1.validated = st.validated ++ [cand]))
    ∧ (∀ resp, cfg.hasClassifier = true → env.classify.cacheHit = none →
        env.classify.downloadOK = true → env.classify.response = .ok resp →
        ((ParseClassificationResult resp).Class = ClassReject ∨
          (ParseClassificationResult resp).Class = ClassStock) →
        (cfg.validateOne cand env maxResults st).1.validated = st.validated) := by
  simp only [Config.validateOne, hurl, hdup, hunk, Bool.not_true, Bool.false_eq_true,
    if_false, reduceCtorEq, ite_false, ite_true]
  refine ⟨?_, ?_, ?_⟩
  · intro hno
    simp only [Config.IsRealPhoto, Config.ClassifyImageFull, hno, Bool.not_false, if_true]
    constructor
    · rfl
    · intro hlt
      simp [guardedAppend, hlt]
  · intro hcache hresp
    cases hC : cfg.hasClassifier with
    | false =>
      simp only [Config.IsRealPhoto, Config.ClassifyImageFull, hC, Bool.not_false, if_true]
      exact ⟨rfl, fun hlt => by simp [guardedAppend, hlt]⟩
    | true =>
      simp only [Config.IsRealPhoto, Config.ClassifyImageFull, hC, Bool.not_true, if_false,
        hcache, Config.doClassifyFull, hresp]
      cases hdl : env.classify.downloadOK with
      | false =>
        simp only [Bool.not_false, if_true]
        exact ⟨rfl, fun hlt => by simp [guardedAppend, hlt]⟩
      | true =>
        simp only [Bool.not_true, if_false]
        exact ⟨rfl, fun hlt => by simp [guardedAppend, hlt]⟩
  · intro resp hC hcache hdl hresp hcls
    simp only [Config.IsRealPhoto, Config.ClassifyImageFull, hC, Bool.not_true, if_false,
      hcache, Config.doClassifyFull, hresp, hdl]
    rcases hcls with hcls | hcls <;>
      simp [hcls, ClassReject, ClassStock, ClassPhoto]

/-- Unknown-license candidate for the C5 witness. -/
def candUnknown : ImageCandidate := ⟨"https://example.com/u.jpg", "", "p", "t", .unknown⟩

/-- Witness for C5: with no classifier configured, a concrete Unknown
candidate is accepted and no llm audit event fires. -/
theorem unknown_classification_outcomes_witness :
    llmAuditCount (Config.validateOne {} candUnknown envAllPass 2 {}).2 = 0
    ∧ (Config.validateOne {} candUnknown envAllPass 2 {}).1.validated = [candUnknown] := by
  have h := (unknown_classification_outcomes {} candUnknown envAllPass 2 {}
    rfl rfl (by decide)).1 rfl
  exact ⟨h.1, h.2 (by decide)⟩

end Imagefy
